import Mathlib

/-!
Verification of the Palnesto e-commerce backend core (shirt catalog service).

The development shallowly embeds the TypeScript source: JavaScript numbers are
modelled as rationals (`ℚ`) — integral where only integral values occur —
stocks and identifiers as naturals, Mongo collections as Lean lists, and the
Redis cache as an association list from key strings to stored results
(serialisation/deserialisation of a cached value is modelled as the identity).
Two data layouts coexist in the repository and both are embedded: the legacy
denormalized layout (one flat `Shirt` record per size variant, the service of
`src/unnamed/part_002` with the model of `src/unnamed/part_003`) and the
normalized layout (`Shirt` + `ShirtSize` child records,
`src/src/services/shirt.service.ts`).
-/

namespace Palnesto

/-- The fixed size enumeration `'M' | 'L' | 'XL' | 'XXL'`. -/
inductive SSize where
  | M | L | XL | XXL
deriving DecidableEq, Repr

/-- Fixed size ordering used by the legacy grouped listing:
`const sizeOrder = { M: 0, L: 1, XL: 2, XXL: 3 }`. -/
def sizeOrder : SSize → Nat
  | .M => 0
  | .L => 1
  | .XL => 2
  | .XXL => 3

/-- The fixed type enumeration `'Casual' | 'Formal' | 'Wedding' | 'Sports' | 'Vintage'`. -/
inductive SType where
  | Casual | Formal | Wedding | Sports | Vintage
deriving DecidableEq, Repr

/-- `IDiscount { type: 'amount' | 'percentage'; value: number }`. -/
inductive DiscountKind where
  | amount | percentage
deriving DecidableEq, Repr

structure Discount where
  kind : DiscountKind
  value : ℚ
deriving DecidableEq, Repr

/-- `Math.round(x * 100) / 100` — round to 2 decimal places.  JavaScript
`Math.round` rounds half toward positive infinity, i.e. `⌊x + 1/2⌋`. -/
def round2 (x : ℚ) : ℚ := (⌊x * 100 + 1/2⌋ : ℤ) / 100

/-- `calculateFinalPrice` of `shirt.service.ts` (the same logic appears in the
legacy service of `part_002` and the `pre('save')` hooks of both models):

```
let finalPrice = price;
if (discount) {
  if (discount.type === 'amount') finalPrice = Math.max(0, price - discount.value);
  else if (discount.type === 'percentage') finalPrice = Math.max(0, price * (1 - discount.value / 100));
}
return Math.round(finalPrice * 100) / 100;
``` -/
def calculateFinalPrice (price : ℚ) (discount : Option Discount) : ℚ :=
  round2 <|
    match discount with
    | some d =>
      match d.kind with
      | .amount => max 0 (price - d.value)
      | .percentage => max 0 (price * (1 - d.value / 100))
    | none => price

/-- `(page - 1) * limit` elements skipped, `limit` taken: `.skip(skip).limit(limit)`
resp. `.slice(skip, skip + limit)`. -/
def paginate (page limit : ℕ) (l : List α) : List α :=
  (l.drop ((page - 1) * limit)).take limit

/-- `Math.ceil(total / limit)` on naturals (`limit > 0`). -/
def ceilDiv (total limit : ℕ) : ℕ := (total + limit - 1) / limit

/-- JS `Map`-style grouping: keys in first-occurrence order. -/
def firstOccKeys [DecidableEq κ] (keys : List κ) : List κ :=
  keys.foldl (fun acc k => if k ∈ acc then acc else acc ++ [k]) []

/-- Partition a list into groups sharing a key, in JS `Map` insertion order
(key order = first occurrence; each group keeps traversal order). -/
def groupByKey [DecidableEq κ] (key : α → κ) (l : List α) : List (List α) :=
  (firstOccKeys (l.map key)).map (fun k => l.filter (fun a => decide (key a = k)))

/-- `new Set(l).size` — the number of distinct elements. -/
def jsSetSize [DecidableEq α] (l : List α) : ℕ := l.dedup.length

/-- `Array.prototype.join(':')`. -/
def joinColon : List String → String
  | [] => ""
  | [s] => s
  | s :: rest => s ++ ":" ++ joinColon rest

end Palnesto

namespace Palnesto.CacheKey

/-- The filter object consumed by `generateCacheKey` (cache service appended to
`src/src/services/auth.service.ts`, lines 191–217).  String filter values are
kept as strings; the numeric `minPrice`/`maxPrice`/`page`/`limit` values are
modelled as naturals, rendered into the key with `Nat.repr` (JS renders an
integral number the same way; no claim depends on the rendering of
non-integral values). -/
structure KeyFilters where
  sizeReferenceId : Option String
  size : Option String
  shirtTypeId : Option String
  type : Option String
  minPrice : Option ℕ
  maxPrice : Option ℕ
  page : ℕ
  limit : ℕ
deriving DecidableEq, Repr

/-- JS truthiness of an optional string: `undefined` and `''` are falsy. -/
def strTruthy : Option String → Option String
  | some s => if s = "" then none else some s
  | none => none

/-- `a || b` on optional strings, then used in a truthiness test. -/
def jsOr (a b : Option String) : Option String :=
  match strTruthy a with
  | some s => some s
  | none => strTruthy b

/-- `generateCacheKey` from the cache service:

```
const parts = ['shirts:list'];
const sizeParam = filters.sizeReferenceId || filters.size;
if (sizeParam) parts.push(`size:${sizeParam}`);
const typeParam = filters.shirtTypeId || filters.type;
if (typeParam) parts.push(`type:${typeParam}`);
if (filters.minPrice !== undefined) parts.push(`minPrice:${filters.minPrice}`);
if (filters.maxPrice !== undefined) parts.push(`maxPrice:${filters.maxPrice}`);
parts.push(`page:${filters.page}`);
parts.push(`limit:${filters.limit}`);
return parts.join(':');
``` -/
def generateCacheKey (f : KeyFilters) : String :=
  let parts : List String :=
    ["shirts:list"]
    ++ (match jsOr f.sizeReferenceId f.size with
        | some v => ["size:" ++ v]
        | none => [])
    ++ (match jsOr f.shirtTypeId f.type with
        | some v => ["type:" ++ v]
        | none => [])
    ++ (match f.minPrice with
        | some v => ["minPrice:" ++ Nat.repr v]
        | none => [])
    ++ (match f.maxPrice with
        | some v => ["maxPrice:" ++ Nat.repr v]
        | none => [])
    ++ ["page:" ++ Nat.repr f.page]
    ++ ["limit:" ++ Nat.repr f.limit]
  joinColon parts

/-- Modelled from the spec: the persisted cache key grammar of §4.2/§6,
`list:[size:<v>:][type:<v>:][minPrice:<v>:][maxPrice:<v>:]page:<n>:limit:<n>`
— fields present only if supplied, order fixed as shown.  Each bracketed
dimension contributes a `label:<v>` segment followed by a colon (the grammar's
trailing `:`), i.e. the key is exactly the colon-join of the head `list`, the
supplied dimension segments in the fixed order, and the pagination segments.
The dimension values are the ones the code's input interpretation supplies
(alias resolution / truthiness), so that only the grammar itself is being
compared. -/
def specCacheKey (f : KeyFilters) : String :=
  joinColon
    (["list"]
     ++ (match jsOr f.sizeReferenceId f.size with
         | some v => ["size:" ++ v]
         | none => [])
     ++ (match jsOr f.shirtTypeId f.type with
         | some v => ["type:" ++ v]
         | none => [])
     ++ (match f.minPrice with
         | some v => ["minPrice:" ++ Nat.repr v]
         | none => [])
     ++ (match f.maxPrice with
         | some v => ["maxPrice:" ++ Nat.repr v]
         | none => [])
     ++ ["page:" ++ Nat.repr f.page]
     ++ ["limit:" ++ Nat.repr f.limit])

/-- A request carrying only pagination (no optional filter dimension). -/
def pageOnly (page limit : ℕ) : KeyFilters :=
  { sizeReferenceId := none, size := none, shirtTypeId := none, type := none
    minPrice := none, maxPrice := none, page := page, limit := limit }

end Palnesto.CacheKey

namespace Palnesto.Legacy

open Palnesto

/-- Legacy `IShirt` (model of `part_003`): one flat record per size variant,
duplicating the shared design fields. -/
structure LShirt where
  id : ℕ
  sellerId : ℕ
  name : String
  description : Option String
  size : SSize
  type : SType
  price : ℚ
  discount : Option Discount
  finalPrice : ℚ
  stock : ℕ
  createdAt : ℕ
deriving DecidableEq, Repr

/-- Validated `ListShirtsInput` of the legacy `shirt.validator.ts`:
optional size/type/price filters, `page ≥ 1`, `1 ≤ limit ≤ 100`,
`groupBy ∈ {'design'}` optional (modelled as a Bool). -/
structure LFilters where
  size : Option SSize
  type : Option SType
  minPrice : Option ℚ
  maxPrice : Option ℚ
  page : ℕ
  limit : ℕ
  groupBy : Bool
deriving DecidableEq, Repr

/-- The Mongo query built by the legacy `listShirts` (part_002, lines 320–341):
`query.size` is set only when a size filter is present AND `groupBy` is absent;
`query.type` and the `finalPrice` range are set whenever present. -/
def lMatches (f : LFilters) (s : LShirt) : Bool :=
  (match f.size, f.groupBy with
   | some sz, false => decide (s.size = sz)
   | _, _ => true)
  && (match f.type with
      | some t => decide (s.type = t)
      | none => true)
  && (match f.minPrice with
      | some m => decide (m ≤ s.finalPrice)
      | none => true)
  && (match f.maxPrice with
      | some m => decide (s.finalPrice ≤ m)
      | none => true)

/-- `.sort({ createdAt: -1 })` — newest first. -/
def sortNewestFirst (l : List LShirt) : List LShirt :=
  l.insertionSort (fun a b => b.createdAt ≤ a.createdAt)

/-- The design key of the legacy grouped listing:
`` `${shirt.name}|${shirt.type}|${shirt.price}` `` — modelled as the tuple of
the three components (the string concatenation is injective on them up to `|`
inside names, which the embedding abstracts away). -/
def designKey (s : LShirt) : String × SType × ℚ := (s.name, s.type, s.price)

/-- `variants.sort((a, b) => sizeOrder[a.size] - sizeOrder[b.size])`. -/
def sortBySizeOrder (l : List LShirt) : List LShirt :=
  l.insertionSort (fun a b => sizeOrder a.size ≤ sizeOrder b.size)

/-- One entry of a grouped design's `variants` array. -/
structure LVariant where
  id : ℕ
  size : SSize
  stock : ℕ
  finalPrice : ℚ
deriving DecidableEq, Repr

/-- One grouped design of the legacy grouped listing response. -/
structure LGroup where
  id : ℕ
  sellerId : ℕ
  name : String
  description : Option String
  type : SType
  price : ℚ
  discount : Option Discount
  finalPrice : ℚ
  totalStock : ℕ
  availableSizes : List SSize
  variants : List LVariant
deriving DecidableEq, Repr

/-- Build one grouped design from the members of one design group
(part_002, lines 364–401): sort variants by size order, take shared fields
from the first (smallest-size) variant, `totalStock = Σ stock`,
`availableSizes = sizes with stock > 0`, `variants` = all members projected.
The code indexes `variants[0]`; groups produced by the `Map` are never empty,
so the empty case yields `none`. -/
def mkLGroup (vs : List LShirt) : Option LGroup :=
  match sortBySizeOrder vs with
  | [] => none
  | first :: rest =>
    some
      { id := first.id
        sellerId := first.sellerId
        name := first.name
        description := first.description
        type := first.type
        price := first.price
        discount := first.discount
        finalPrice := first.finalPrice
        totalStock := ((first :: rest).map (·.stock)).sum
        availableSizes :=
          ((first :: rest).filter (fun v => decide (0 < v.stock))).map (·.size)
        variants :=
          (first :: rest).map (fun v => ⟨v.id, v.size, v.stock, v.finalPrice⟩) }

/-- All grouped designs for a grouped legacy listing: fetch every matching
record (no pagination), group by the design key in `Map` insertion order,
and aggregate each group. -/
def lGroupedDesigns (f : LFilters) (db : List LShirt) : List LGroup :=
  (groupByKey designKey (sortNewestFirst (db.filter (lMatches f)))).filterMap mkLGroup

/-- Post-grouping size filter (part_002, lines 403–409):
`filteredDesigns = groupedDesigns.filter(d => d.availableSizes.includes(filters.size))`
when a size filter was supplied. -/
def lFilteredDesigns (f : LFilters) (db : List LShirt) : List LGroup :=
  match f.size with
  | some sz => (lGroupedDesigns f db).filter (fun d => d.availableSizes.contains sz)
  | none => lGroupedDesigns f db

/-- The legacy listing response: either flat variant records or grouped designs. -/
inductive LPayload where
  | flat (items : List LShirt)
  | grouped (items : List LGroup)
deriving DecidableEq, Repr

/-- Number of returned items of a page. -/
def LPayload.count : LPayload → ℕ
  | .flat items => items.length
  | .grouped items => items.length

structure LResult where
  shirts : LPayload
  total : ℕ
  page : ℕ
  limit : ℕ
  totalPages : ℕ
deriving DecidableEq, Repr

/-- Cache key used by the legacy service via `getCachedShirtList(filters)`:
the enum filter values are rendered by their JS string names.  Price bounds
enter the key through the numeric rendering; the legacy price filters are kept
out of the key-filter record only where non-integral (claims never depend on
them), so the conversion truncates via `Option.bind` on the denominator. -/
def sizeName : SSize → String
  | .M => "M"
  | .L => "L"
  | .XL => "XL"
  | .XXL => "XXL"

def typeName : SType → String
  | .Casual => "Casual"
  | .Formal => "Formal"
  | .Wedding => "Wedding"
  | .Sports => "Sports"
  | .Vintage => "Vintage"

def lCacheKey (f : LFilters) : String :=
  CacheKey.generateCacheKey
    { sizeReferenceId := none
      size := f.size.map sizeName
      shirtTypeId := none
      type := f.type.map typeName
      minPrice := f.minPrice.bind (fun q => if q.den = 1 then some q.num.toNat else none)
      maxPrice := f.maxPrice.bind (fun q => if q.den = 1 then some q.num.toNat else none)
      page := f.page
      limit := f.limit }

/-- Legacy `listShirts` (part_002, lines 286–452).  The cache is consulted and
written only when `groupBy` is absent; grouped results are computed fresh and
never cached.  The cache argument is an association list keyed by the listing
cache key, newest entry first (`redis.setEx` overwrite = prepend). -/
def listShirts (f : LFilters) (cache : List (String × LResult)) (db : List LShirt) :
    LResult × List (String × LResult) :=
  let key := lCacheKey f
  if f.groupBy then
    let designs := lFilteredDesigns f db
    let total := designs.length
    ({ shirts := .grouped (paginate f.page f.limit designs)
       total := total
       page := f.page
       limit := f.limit
       totalPages := ceilDiv total f.limit }, cache)
  else
    match (cache.find? (fun kv => kv.1 == key)).map (·.2) with
    | some r => (r, cache)
    | none =>
      let matching := db.filter (lMatches f)
      let res : LResult :=
        { shirts := .flat (paginate f.page f.limit (sortNewestFirst matching))
          total := matching.length
          page := f.page
          limit := f.limit
          totalPages := ceilDiv matching.length f.limit }
      (res, (key, res) :: cache)

/-- `sizes` entry of the legacy `updateShirtSchema` / `batchCreateShirtSchema`. -/
structure LSizeStock where
  size : SSize
  stock : ℕ
deriving DecidableEq, Repr

/-- The duplicate-size refinement of the legacy `updateShirtSchema`
(`shirt.validator.ts`, lines 66–89): the `sizes` array is accepted iff
`new Set(sizes.map(s => s.size)).size === sizes.length`; there is no
positive-stock refinement on the update schema (unlike `batchCreateShirtSchema`). -/
def updateSizesValid (sizes : List LSizeStock) : Bool :=
  jsSetSize (sizes.map (·.size)) == sizes.length

end Palnesto.Legacy

namespace Palnesto.Norm

open Palnesto

/-- Conversion of an integral JS number to the natural rendered in a cache key. -/
def keyNat (q : ℚ) : Option ℕ := if q.den = 1 then some q.num.toNat else none

/-- Normalized `IShirt` (`src/src/models/Shirt.ts`): the design record —
shared fields only; prices live on the `ShirtSize` children. -/
structure NShirt where
  id : ℕ
  userId : ℕ
  name : String
  description : Option String
  shirtTypeId : ℕ
  discount : Option Discount
  createdAt : ℕ
deriving DecidableEq, Repr

/-- Normalized `IShirtSize` (`part_011`): one size variant of a design. -/
structure NShirtSize where
  id : ℕ
  shirtId : ℕ
  sizeReferenceId : ℕ
  price : ℚ
  imageURL : Option String
  stock : ℕ
  finalPrice : ℚ
  createdAt : ℕ
deriving DecidableEq, Repr

/-- `ISizeReference` (`src/src/models/SizeReference.ts`). -/
structure NSizeRef where
  id : ℕ
  name : String
  displayName : String
  order : ℕ
  isActive : Bool
deriving DecidableEq, Repr

/-- `IShirtType` (`dist/src/models/ShirtType.js`). -/
structure NShirtType where
  id : ℕ
  name : String
  isActive : Bool
deriving DecidableEq, Repr

/-- One row of the ungrouped listing projection (`shirt.service.ts`, lines 603–626). -/
structure NFlatItem where
  id : ℕ
  shirtId : ℕ
  userId : ℕ
  name : String
  description : Option String
  shirtTypeId : ℕ
  shirtType : String
  discount : Option Discount
  sizeReferenceId : ℕ
  sizeRefName : String
  sizeRefDisplayName : String
  price : ℚ
  imageURL : Option String
  stock : ℕ
  finalPrice : ℚ
  createdAt : ℕ
deriving DecidableEq, Repr

/-- One entry of a grouped design's `variants` array (lines 490–500, enriched
with the joined `sizeReference`). -/
structure NGVariant where
  id : ℕ
  sizeReferenceId : ℕ
  sizeRefName : String
  sizeRefOrder : ℕ
  price : ℚ
  imageURL : Option String
  stock : ℕ
  finalPrice : ℚ
deriving DecidableEq, Repr

/-- One grouped design of the normalized grouped listing (lines 504–516 plus
the post-aggregation `availableSizes`/variant sorting of lines 541–557). -/
structure NGroupOut where
  id : ℕ
  userId : ℕ
  name : String
  description : Option String
  shirtTypeId : ℕ
  shirtType : String
  discount : Option Discount
  variants : List NGVariant
  totalStock : ℕ
  availableSizes : List String
deriving DecidableEq, Repr

inductive NPayload where
  | flat (items : List NFlatItem)
  | grouped (items : List NGroupOut)
deriving DecidableEq, Repr

def NPayload.count : NPayload → ℕ
  | .flat items => items.length
  | .grouped items => items.length

/-- The normalized listing response envelope (`grouped` is the literal flag the
service places in the response). -/
structure NResult where
  shirts : NPayload
  total : ℕ
  page : ℕ
  limit : ℕ
  totalPages : ℕ
  grouped : Bool
deriving DecidableEq, Repr

/-- The store + cache state: Mongo collections as lists, the Redis listing
cache as an association list (newest entry first; a stored value is the parsed
response, serialisation being modelled as the identity), and a fresh-id
counter standing in for ObjectId generation (also used as the implicit
timestamp of newly inserted documents). -/
structure NState where
  shirts : List NShirt
  shirtSizes : List NShirtSize
  shirtTypes : List NShirtType
  sizeRefs : List NSizeRef
  cache : List (String × NResult)
  nextId : ℕ
deriving DecidableEq, Repr

/-- `invalidateShirtListCache`: `redis.keys('shirts:list:*')` then `del` —
every key of the listing cache is removed. -/
def invalidateCache (c : List (String × NResult)) : List (String × NResult) :=
  c.filter (fun kv => !(kv.1.startsWith "shirts:list:"))

/-- `Shirt.findOne({ _id: shirtId, userId })`. -/
def findShirt (st : NState) (sid uid : ℕ) : Option NShirt :=
  st.shirts.find? (fun s => s.id == sid && s.userId == uid)

/-- `shirt.save()` — replace the stored design record (the normalized `Shirt`
schema has no save hook). -/
def replaceShirt (st : NState) (s : NShirt) : NState :=
  { st with shirts := st.shirts.map (fun t => if t.id = s.id then s else t) }

/-- The `ShirtSize` pre-save hook (`part_011`): recompute `finalPrice` from the
parent shirt's discount (price rounded as-is when the parent is absent or has
no discount). -/
def shirtSizeHookPrice (st : NState) (r : NShirtSize) : ℚ :=
  calculateFinalPrice r.price ((st.shirts.find? (fun s => s.id == r.shirtId)).bind (·.discount))

/-- `shirtSize.save()` on an existing document: run the hook, replace the
stored record, and return the saved document (the object the service pushes
onto its result lists). -/
def saveShirtSize (st : NState) (r : NShirtSize) : NShirtSize × NState :=
  let saved := { r with finalPrice := shirtSizeHookPrice st r }
  (saved, { st with shirtSizes := st.shirtSizes.map (fun t => if t.id = r.id then saved else t) })

/-- `new ShirtSize({...}).save()`: a fresh document (fresh id, hook-computed
`finalPrice`) appended to the collection. -/
def createShirtSize (st : NState) (shirtId sizeRefId : ℕ) (price : ℚ)
    (imageURL : Option String) (stock : ℕ) : NShirtSize × NState :=
  let rec0 : NShirtSize :=
    { id := st.nextId, shirtId := shirtId, sizeReferenceId := sizeRefId
      price := price, imageURL := imageURL, stock := stock
      finalPrice := price, createdAt := st.nextId }
  let saved := { rec0 with finalPrice := shirtSizeHookPrice st rec0 }
  (saved, { st with shirtSizes := st.shirtSizes ++ [saved], nextId := st.nextId + 1 })

/-- One entry of the `sizes` batch of the normalized `updateShirtSchema`
(`dist/src/validators/shirt.validator.js`): `sizeReferenceId`, `price`,
optional `imageURL`, `stock`. -/
structure SizeEntry where
  sizeReferenceId : ℕ
  price : ℚ
  imageURL : Option String
  stock : ℕ
deriving DecidableEq, Repr

/-- `currentSizeVariant` — a partial update of the design's primary variant. -/
structure CurrentSizeVariant where
  price : Option ℚ
  imageURL : Option String
  stock : Option ℕ
deriving DecidableEq, Repr

/-- Validated `UpdateShirtInput` of the normalized schema. -/
structure UpdateInput where
  name : Option String
  description : Option String
  shirtTypeId : Option ℕ
  discount : Option Discount
  currentSizeVariant : Option CurrentSizeVariant
  sizes : Option (List SizeEntry)
deriving DecidableEq, Repr

/-- The service's update result. -/
structure UpdateRes where
  shirt : NShirt
  updatedShirtSizes : List NShirtSize
  createdShirtSizes : List NShirtSize
  updatedCount : ℕ
  createdCount : ℕ
deriving DecidableEq, Repr

/-- The per-entry reconciliation loop of `updateShirt` (`shirt.service.ts`,
lines 253–296): skip zero-stock entries, skip the entry matching the first
stored variant's size reference (`currentSizeRefId`), throw on an unknown size
reference, update the variant found in the pre-loop fetch (`existing`), else
create a fresh variant carrying the design's current discount. -/
def processSizes (curRef : Option ℕ) (existing : List NShirtSize)
    (shirt : NShirt) : List SizeEntry → NState → List NShirtSize → List NShirtSize →
    (Except String Unit) × NState × List NShirtSize × List NShirtSize
  | [], st, upd, crtd => (.ok (), st, upd, crtd)
  | e :: rest, st, upd, crtd =>
    if e.stock = 0 then
      processSizes curRef existing shirt rest st upd crtd
    else if curRef = some e.sizeReferenceId then
      processSizes curRef existing shirt rest st upd crtd
    else if !(st.sizeRefs.any (fun r => r.id == e.sizeReferenceId)) then
      (.error "SizeReference not found", st, upd, crtd)
    else
      match existing.find? (fun r => r.sizeReferenceId == e.sizeReferenceId) with
      | some ex =>
        let ex' := { ex with
          price := e.price
          imageURL := match e.imageURL with | some u => some u | none => ex.imageURL
          stock := e.stock }
        let (saved, st') := saveShirtSize st ex'
        processSizes curRef existing shirt rest st' (upd ++ [saved]) crtd
      | none =>
        let (saved, st') := createShirtSize st shirt.id e.sizeReferenceId e.price e.imageURL e.stock
        processSizes curRef existing shirt rest st' upd (crtd ++ [saved])

/-- The shared-attribute application of `updateShirt` (`shirt.service.ts`,
lines 200–216): partial replace of `name`, `description`, `shirtTypeId`
(validated against the `ShirtType` collection — a failing validation throws
before `shirt.save()`), and `discount`. -/
def applyShirtFields (st : NState) (name? description? : Option String)
    (shirtTypeId? : Option ℕ) (discount? : Option Discount) (shirt0 : NShirt) :
    Except String NShirt :=
  let s1 := match name? with | some n => { shirt0 with name := n } | none => shirt0
  let s2 := match description? with | some d => { s1 with description := some d } | none => s1
  let s3e : Except String NShirt :=
    match shirtTypeId? with
    | some t =>
      if st.shirtTypes.any (fun ty => ty.id == t) then .ok { s2 with shirtTypeId := t }
      else .error "ShirtType not found"
    | none => .ok s2
  s3e.map (fun s3 => match discount? with | some d => { s3 with discount := some d } | none => s3)

/-- The `currentSizeVariant` step (lines 223–235): partially update the FIRST
`ShirtSize` found for the shirt (`findOne({shirtId})`), if any. -/
def cvStepRun (st1 : NState) (shirtId : ℕ) (cv? : Option CurrentSizeVariant) :
    List NShirtSize × ℕ × NState :=
  match cv? with
  | some cv =>
    match st1.shirtSizes.find? (fun r => r.shirtId == shirtId) with
    | some ex =>
      let ex' := { ex with
        price := cv.price.getD ex.price
        imageURL := match cv.imageURL with | some u => some u | none => ex.imageURL
        stock := cv.stock.getD ex.stock }
      let (saved, st') := saveShirtSize st1 ex'
      ([saved], 1, st')
    | none => ([], 0, st1)
  | none => ([], 0, st1)

/-- The `sizes` step (lines 237–297): when a non-empty batch is supplied,
fetch the shirt's existing variants, remember the first one's size reference
(`currentSizeRefId`), and run the reconciliation loop. -/
def sizesStepRun (st2 : NState) (shirt : NShirt) (sizes? : Option (List SizeEntry)) :
    (Except String Unit) × NState × List NShirtSize × List NShirtSize :=
  match sizes? with
  | some sizes =>
    if sizes.length ≠ 0 then
      let existing := st2.shirtSizes.filter (fun r => r.shirtId == shirt.id)
      let curRef := existing.head?.map (·.sizeReferenceId)
      processSizes curRef existing shirt sizes st2 [] []
    else (.ok (), st2, [], [])
  | none => (.ok (), st2, [], [])

/-- `updateShirt` (`shirt.service.ts`, lines 179–334).  Returns the thrown
message or the service result (`none` = not-found-or-unauthorized), together
with the state as left behind (writes before a throw persist; the cache is
invalidated only on the successful path, after the loop). -/
def updateShirt (sid uid : ℕ) (data : UpdateInput) (st : NState) :
    (Except String (Option UpdateRes)) × NState :=
  match findShirt st sid uid with
  | none => (.ok none, st)
  | some shirt0 =>
    match applyShirtFields st data.name data.description data.shirtTypeId data.discount shirt0 with
    | .error m => (.error m, st)
    | .ok s4 =>
      let st1 := replaceShirt st s4
      match cvStepRun st1 s4.id data.currentSizeVariant with
      | (upd0, cnt0, st2) =>
        match sizesStepRun st2 s4 data.sizes with
        | (.error m, st3, _, _) => (.error m, st3)
        | (.ok _, st3, upd, crtd) =>
          (.ok (some
            { shirt := s4
              updatedShirtSizes := upd0 ++ upd
              createdShirtSizes := crtd
              updatedCount := cnt0 + upd.length
              createdCount := crtd.length }),
           { st3 with cache := invalidateCache st3.cache })


/-- `deleteShirt` (`shirt.service.ts`, lines 673–705): ownership-scoped
lookup (`null` collapsed with wrong-owner), cascade delete of all `ShirtSize`
children, then `deleteOne({_id, userId})` — with unique `_id`s at most one
document matches, so the single-document delete is a filter — and cache
invalidation when `deletedCount > 0`. -/
def deleteShirt (sid uid : ℕ) (st : NState) : Bool × NState :=
  match findShirt st sid uid with
  | none => (false, st)
  | some shirt =>
    let st1 := { st with shirtSizes := st.shirtSizes.filter (fun r => !(r.shirtId == shirt.id)) }
    let deleted := st1.shirts.any (fun s => s.id == sid && s.userId == uid)
    let st2 := { st1 with shirts := st1.shirts.filter (fun s => !(s.id == sid && s.userId == uid)) }
    if deleted then (true, { st2 with cache := invalidateCache st2.cache }) else (false, st2)

end Palnesto.Norm

namespace Palnesto.Norm

open Palnesto

/-- Validated `ListShirtsInput` of the normalized schema: string size/type
parameters (name or id aliases), numeric price bounds, pagination, optional
`groupBy = 'design'`. -/
structure NFilters where
  sizeReferenceId : Option String
  size : Option String
  shirtTypeId : Option String
  type : Option String
  minPrice : Option ℚ
  maxPrice : Option ℚ
  page : ℕ
  limit : ℕ
  groupBy : Bool
deriving DecidableEq, Repr

/-- The cache key of a normalized listing request: `generateCacheKey(filters)`.
Note the key ignores `groupBy` entirely. -/
def nCacheKey (f : NFilters) : String :=
  CacheKey.generateCacheKey
    { sizeReferenceId := f.sizeReferenceId
      size := f.size
      shirtTypeId := f.shirtTypeId
      type := f.type
      minPrice := f.minPrice.bind keyNat
      maxPrice := f.maxPrice.bind keyNat
      page := f.page
      limit := f.limit }

/-- `isValidObjectId` (`dist/src/models/index.js`):
`mongoose.Types.ObjectId.isValid(value) && value.length === 24`.  ObjectId
strings are modelled as the decimal renderings of the numeric ids, so
well-formedness becomes "parses as a natural number" (reference NAMES — `M`,
`Casual`, … — are non-numeric, so the two classes stay disjoint exactly as
24-hex-char strings are disjoint from the names). -/
def isValidObjectId (p : String) : Bool := p.toNat?.isSome

/-- `t.charAt(0).toUpperCase() + t.slice(1)`. -/
def capFirst (s : String) : String :=
  match s.data with
  | [] => s
  | c :: rest => String.mk (c.toUpper :: rest)

/-- The startup-built size-reference cache of `initializeReferenceCache`
(`dist/src/models/index.js`): a `Map` from the UPPER-CASED names of the
ACTIVE size references to their ids.  `Map.set` overwrites, so on a
(case-folded) name collision the later reference wins the lookup; the model
reads through the current state, the imperative rebuild being the spec's
"refreshed imperatively" cache. -/
def sizeRefCacheLookup (st : NState) (key : String) : Option ℕ :=
  (((st.sizeRefs.filter (·.isActive)).reverse).find?
    (fun r => r.name.toUpper == key)).map (·.id)

/-- `Array.from(sizeReferenceCache.keys())`: distinct upper-cased active
names in first-insertion order (`Map.set` keeps the original position). -/
def sizeRefCacheKeys (st : NState) : List String :=
  firstOccKeys ((st.sizeRefs.filter (·.isActive)).map (fun r => r.name.toUpper))

/-- The analogous shirt-type cache: LOWER-CASED names of the active types. -/
def shirtTypeCacheLookup (st : NState) (key : String) : Option ℕ :=
  (((st.shirtTypes.filter (·.isActive)).reverse).find?
    (fun t => t.name.toLower == key)).map (·.id)

def shirtTypeCacheKeys (st : NState) : List String :=
  firstOccKeys ((st.shirtTypes.filter (·.isActive)).map (fun t => t.name.toLower))

/-- `resolveSizeReference` (`dist/src/models/index.js`, lines 65–78): a
well-formed ObjectId passes through WITHOUT an existence check; otherwise the
parameter is upper-cased and looked up in the active-size name cache, and an
unknown name throws, listing the valid sizes (with a static fallback when the
cache is empty — JS `||` on the joined string). -/
def resolveSizeReference (st : NState) (p : String) : Except String ℕ :=
  match p.toNat? with
  | some n => .ok n
  | none =>
    match sizeRefCacheLookup st p.toUpper with
    | some i => .ok i
    | none =>
      let validSizes := String.intercalate ", " (sizeRefCacheKeys st)
      .error ("Invalid size: '" ++ p ++ "'. Valid sizes are: "
        ++ (if validSizes = "" then "M, L, XL, XXL" else validSizes))

/-- `resolveShirtType` (`dist/src/models/index.js`, lines 87–102): same
shape — ObjectId passthrough without existence check, case-insensitive
lookup over the active types, error listing the capitalized valid names. -/
def resolveShirtType (st : NState) (p : String) : Except String ℕ :=
  match p.toNat? with
  | some n => .ok n
  | none =>
    match shirtTypeCacheLookup st p.toLower with
    | some i => .ok i
    | none =>
      let validTypes := String.intercalate ", " ((shirtTypeCacheKeys st).map capFirst)
      .error ("Invalid shirt type: '" ++ p ++ "'. Valid types are: "
        ++ (if validTypes = "" then "Casual, Formal, Wedding, Sports, Vintage" else validTypes))

/-- The `$match` on the `ShirtSize` collection (resolved size id plus
`finalPrice` range, lines 406–441). -/
def nMatchSize (sizeId : Option ℕ) (minP maxP : Option ℚ) (r : NShirtSize) : Bool :=
  (match sizeId with | some i => r.sizeReferenceId == i | none => true)
  && (match minP with | some m => decide (m ≤ r.finalPrice) | none => true)
  && (match maxP with | some m => decide (r.finalPrice ≤ m) | none => true)

/-- `$match` on the joined shirt's type (when a type filter was resolved). -/
def typeOk (tid : Option ℕ) (sh : NShirt) : Bool :=
  match tid with | some t => sh.shirtTypeId == t | none => true

/-- A fully joined pipeline row: `ShirtSize` `$lookup`-joined (inner, via
`$unwind`) with its `Shirt`, `ShirtType` and `SizeReference`. -/
structure NJoined where
  ss : NShirtSize
  shirt : NShirt
  shirtType : NShirtType
  sizeRef : NSizeRef
deriving DecidableEq, Repr

/-- All three `$lookup`+`$unwind` joins plus the type `$match` (the relative
order of the stages does not affect the resulting row set). -/
def nJoinAll (st : NState) (tid : Option ℕ) (base : List NShirtSize) : List NJoined :=
  base.filterMap (fun r =>
    (st.shirts.find? (fun s => s.id == r.shirtId)).bind fun sh =>
      if typeOk tid sh then
        (st.shirtTypes.find? (fun t => t.id == sh.shirtTypeId)).bind fun ty =>
          (st.sizeRefs.find? (fun sr => sr.id == r.sizeReferenceId)).map fun sr =>
            ⟨r, sh, ty, sr⟩
      else none)

/-- The ungrouped projection (lines 603–626). -/
def nProject (j : NJoined) : NFlatItem :=
  { id := j.ss.id
    shirtId := j.ss.shirtId
    userId := j.shirt.userId
    name := j.shirt.name
    description := j.shirt.description
    shirtTypeId := j.shirt.shirtTypeId
    shirtType := j.shirtType.name
    discount := j.shirt.discount
    sizeReferenceId := j.ss.sizeReferenceId
    sizeRefName := j.sizeRef.name
    sizeRefDisplayName := j.sizeRef.displayName
    price := j.ss.price
    imageURL := j.ss.imageURL
    stock := j.ss.stock
    finalPrice := j.ss.finalPrice
    createdAt := j.ss.createdAt }

/-- The ungrouped count pipeline (lines 634–648): `$match`, shirt join, type
`$match`, `$count` — it does NOT perform the `ShirtType`/`SizeReference`
joins of the item pipeline. -/
def nFlatTotal (st : NState) (sizeId tid : Option ℕ) (minP maxP : Option ℚ) : ℕ :=
  ((st.shirtSizes.filter (nMatchSize sizeId minP maxP)).filterMap (fun r =>
    (st.shirts.find? (fun s => s.id == r.shirtId)).bind fun sh =>
      if typeOk tid sh then some sh else none)).length

/-- The aggregation `$group` on `{shirtId, name, shirtTypeId}` followed by the
`$project` (lines 480–516): shared fields via `$first`, pushed `variants`,
`totalStock = $sum '$stock'`.  `availableSizes` is attached later (post
aggregation); groups coming from `groupByKey` are never empty. -/
def mkNGroup (js : List NJoined) : Option NGroupOut :=
  match js with
  | [] => none
  | j :: rest =>
    some
      { id := j.shirt.id
        userId := j.shirt.userId
        name := j.shirt.name
        description := j.shirt.description
        shirtTypeId := j.shirt.shirtTypeId
        shirtType := j.shirtType.name
        discount := j.shirt.discount
        variants := (j :: rest).map (fun x =>
          ⟨x.ss.id, x.ss.sizeReferenceId, x.sizeRef.name, x.sizeRef.order,
           x.ss.price, x.ss.imageURL, x.ss.stock, x.ss.finalPrice⟩)
        totalStock := ((j :: rest).map (·.ss.stock)).sum
        availableSizes := [] }

/-- The size order used to sort variants inside a grouped design
(lines 536–539): a map over ACTIVE size references, consulted with
`sizeOrderMap.get(id) || 999` — note that JS `||` also sends an order of `0`
to the 999 fallback. -/
def sizeOrderOf (st : NState) (id : ℕ) : ℕ :=
  match ((st.sizeRefs.filter (·.isActive)).find? (fun r => r.id == id)).map (·.order) with
  | some o => if o = 0 then 999 else o
  | none => 999

/-- Post-aggregation per-group step (lines 541–557): sort `variants` by size
order, compute `availableSizes` as the names of the positive-stock variants. -/
def finishNGroup (st : NState) (g : NGroupOut) : NGroupOut :=
  let sortedVariants := g.variants.insertionSort
    (fun a b => sizeOrderOf st a.sizeReferenceId ≤ sizeOrderOf st b.sizeReferenceId)
  { g with
    variants := sortedVariants
    availableSizes := (sortedVariants.filter (fun v => decide (0 < v.stock))).map (·.sizeRefName) }

/-- `$sort { name: 1, 'shirtType.name': 1 }` over groups; after the `$project`
the `shirtType` field is a plain string, so the secondary path is vacuous and
the sort is by name. -/
def sortGroupsByName (l : List NGroupOut) : List NGroupOut :=
  l.insertionSort (fun a b => a.name < b.name ∨ a.name = b.name)

/-- `listShirts` (`shirt.service.ts`, lines 389–667).  The cache is consulted
FIRST and unconditionally — the comment reads "(only for non-grouped results)"
but the code does not test `groupBy` before returning a cached entry.  On a
miss: resolve the size/type parameters (throwing on invalid values), then
either the grouped aggregation (computed fresh, never written to the cache) or
the flat listing (written to the cache). -/
def listShirts (f : NFilters) (st : NState) : (Except String NResult) × NState :=
  let key := nCacheKey f
  match (st.cache.find? (fun kv => kv.1 == key)).map (·.2) with
  | some r => (.ok r, st)
  | none =>
    match (match CacheKey.jsOr f.sizeReferenceId f.size with
           | some p => (resolveSizeReference st p).map some
           | none => .ok none : Except String (Option ℕ)) with
    | .error m => (.error m, st)
    | .ok sizeId =>
      match (match CacheKey.jsOr f.shirtTypeId f.type with
             | some p => (resolveShirtType st p).map some
             | none => .ok none : Except String (Option ℕ)) with
      | .error m => (.error m, st)
      | .ok tid =>
        let base := st.shirtSizes.filter (nMatchSize sizeId f.minPrice f.maxPrice)
        if f.groupBy then
          let joined := nJoinAll st tid base
          let groups := (groupByKey (fun j => (j.ss.shirtId, j.shirt.name, j.shirt.shirtTypeId)) joined).filterMap mkNGroup
          let total := groups.length
          let pageGroups := paginate f.page f.limit (sortGroupsByName groups)
          let res : NResult :=
            { shirts := .grouped (pageGroups.map (finishNGroup st))
              total := total
              page := f.page
              limit := f.limit
              totalPages := ceilDiv total f.limit
              grouped := true }
          (.ok res, st)
        else
          let items := paginate f.page f.limit
            (((nJoinAll st tid base).map nProject).insertionSort
              (fun a b => b.createdAt ≤ a.createdAt))
          let res : NResult :=
            { shirts := .flat items
              total := nFlatTotal st sizeId tid f.minPrice f.maxPrice
              page := f.page
              limit := f.limit
              totalPages := ceilDiv (nFlatTotal st sizeId tid f.minPrice f.maxPrice) f.limit
              grouped := false }
          (.ok res, { st with cache := (key, res) :: st.cache })

/-- Price bound check of the normalized validator: `0 ≤ price ≤ 10000`. -/
def validPrice (p : ℚ) : Bool := decide (0 ≤ p) && decide (p ≤ 10000)

/-- The normalized `updateShirtSchema`
(`dist/src/validators/shirt.validator.js`): length bounds on `name` and
`description`, non-negative discount, price bounds on the size variants, and
the duplicate-size refinement
`new Set(sizes.map(s => s.sizeReferenceId.toString())).size === sizes.length`.
(ObjectId well-formedness and URL format checks have no content for ℕ ids and
unconstrained URL strings.) -/
def validUpdateInput (d : UpdateInput) : Bool :=
  (match d.name with | some n => decide (1 ≤ n.length) && decide (n.length ≤ 200) | none => true)
  && (match d.description with | some s => decide (s.length ≤ 1000) | none => true)
  && (match d.discount with | some dc => decide (0 ≤ dc.value) | none => true)
  && (match d.currentSizeVariant with
      | some cv => (match cv.price with | some p => validPrice p | none => true)
      | none => true)
  && (match d.sizes with
      | some l =>
        l.all (fun e => validPrice e.price)
        && (jsSetSize (l.map (·.sizeReferenceId)) == l.length)
      | none => true)

/-- Outcome of the update endpoint (`updateShirtHandler` of
`shirt.controller.ts`): Zod rejection (HTTP 400), not-found/unauthorized
(404), success (200), or a thrown service error (500). -/
inductive UpdateOutcome where
  | validationError
  | notFound
  | updated (res : UpdateRes)
  | serverError (msg : String)
deriving DecidableEq, Repr

/-- `updateShirtHandler`: parse (validate) the body first; only a validated
request reaches the service. -/
def updateShirtEndpoint (sid uid : ℕ) (d : UpdateInput) (st : NState) :
    UpdateOutcome × NState :=
  if validUpdateInput d then
    match updateShirt sid uid d st with
    | (.ok none, st') => (.notFound, st')
    | (.ok (some r), st') => (.updated r, st')
    | (.error m, st') => (.serverError m, st')
  else (.validationError, st)

end Palnesto.Norm

namespace Palnesto.Examples

open Palnesto Palnesto.Legacy Palnesto.Norm

/-- Legacy store: one design "Oxford" with variants M(30), L(25), XL(0). -/
def oxfordM : LShirt :=
  { id := 1, sellerId := 7, name := "Oxford", description := none, size := .M
    type := .Formal, price := 2500, discount := none, finalPrice := 2500
    stock := 30, createdAt := 3 }

def oxfordL : LShirt :=
  { oxfordM with id := 2, size := .L, stock := 25, createdAt := 2 }

def oxfordXL : LShirt :=
  { oxfordM with id := 3, size := .XL, stock := 0, createdAt := 1 }

def oxfordDb : List LShirt := [oxfordM, oxfordL, oxfordXL]

/-- Legacy store for the grouped size filter: a design whose only L variant
has stock 0. -/
def soloZeroL : LShirt :=
  { id := 4, sellerId := 7, name := "Denim", description := none, size := .L
    type := .Casual, price := 100, discount := none, finalPrice := 100
    stock := 0, createdAt := 5 }

/-- Grouped legacy listing filtered by size L. -/
def groupedLFilters : LFilters :=
  { size := some .L, type := none, minPrice := none, maxPrice := none
    page := 1, limit := 10, groupBy := true }

/-- Ungrouped legacy listing, limit 2 (for pagination sums). -/
def pagedFilters : LFilters :=
  { size := none, type := none, minPrice := none, maxPrice := none
    page := 1, limit := 2, groupBy := false }

/-- Normalized store: one design (user 10) with a single M variant, plus its
reference data; empty cache. -/
def teeType : NShirtType := { id := 100, name := "Casual", isActive := true }

def mRef : NSizeRef := { id := 200, name := "M", displayName := "M", order := 1, isActive := true }

def teeShirt : NShirt :=
  { id := 1, userId := 10, name := "Tee", description := none
    shirtTypeId := 100, discount := none, createdAt := 0 }

def teeSizeM : NShirtSize :=
  { id := 5, shirtId := 1, sizeReferenceId := 200, price := 100, imageURL := none
    stock := 3, finalPrice := 100, createdAt := 0 }

def teeState : NState :=
  { shirts := [teeShirt], shirtSizes := [teeSizeM], shirtTypes := [teeType]
    sizeRefs := [mRef], cache := [], nextId := 1000 }

/-- A plain normalized listing request: no filters, page 1, limit 10. -/
def teeFlatReq : NFilters :=
  { sizeReferenceId := none, size := none, shirtTypeId := none, type := none
    minPrice := none, maxPrice := none, page := 1, limit := 10, groupBy := false }

/-- The same request with `groupBy = 'design'`. -/
def teeGroupedReq : NFilters := { teeFlatReq with groupBy := true }

/-- An update request whose batch duplicates a size reference. -/
def dupSizesData : Norm.UpdateInput :=
  { name := none, description := none, shirtTypeId := none, discount := none
    currentSizeVariant := none
    sizes := some [⟨200, 100, none, 30⟩, ⟨200, 100, none, 30⟩] }

/-- An update request whose batch has a single entry with stock 0. -/
def allZeroData : Norm.UpdateInput :=
  { name := none, description := none, shirtTypeId := none, discount := none
    currentSizeVariant := none
    sizes := some [⟨201, 100, none, 0⟩] }

/-- An update request whose batch targets the first stored variant's size. -/
def firstSizeData : Norm.UpdateInput :=
  { name := none, description := none, shirtTypeId := none, discount := none
    currentSizeVariant := none
    sizes := some [⟨200, 150, none, 7⟩] }

end Palnesto.Examples

namespace Palnesto

/-- `round2` fixes any rational with at most two decimal places. -/
theorem round2_eq_self {q : ℚ} (h : (q * 100).den = 1) : round2 q = q := by
  have hq : ((q * 100).num : ℚ) = q * 100 := by
    rw [← Rat.num_div_den (q * 100), h]
    simp
  have hhalf : ⌊(1/2 : ℚ)⌋ = 0 := by
    rw [Int.floor_eq_zero_iff]
    constructor <;> norm_num
  unfold round2
  rw [show q * 100 + 1/2 = ((q * 100).num : ℚ) + 1/2 by rw [hq]]
  rw [Int.floor_int_add, hhalf, add_zero]
  rw [hq]
  field_simp

/-- `round2` fixes the integers. -/
theorem round2_intCast (n : ℤ) : round2 (n : ℚ) = n := by
  apply round2_eq_self
  rw [show ((n : ℚ) * 100) = ((n * 100 : ℤ) : ℚ) by push_cast; ring]
  exact Rat.den_intCast _

end Palnesto

open Palnesto

/-- C2 counterexample: the claim says that with no discount the derived
`finalPrice` equals the price, for every price; the code rounds
unconditionally, so price `0.005` yields `0.01` ≠ `0.005`. -/
theorem calculateFinalPrice_no_discount_rounds_cex :
    calculateFinalPrice (1/200) none = 1/100 ∧
    calculateFinalPrice (1/200) none ≠ 1/200 := by
  have h : calculateFinalPrice (1/200) none = 1/100 := by
    show round2 (1/200) = 1/100
    unfold round2
    rw [show (1/200 : ℚ) * 100 + 1/2 = 1 by norm_num, Int.floor_one]
    norm_num
  exact ⟨h, by rw [h]; norm_num⟩

/-- C2 (amended): `finalPrice` is `round2 (max 0 (p − v))` for an `amount`
discount, `round2 (max 0 (p·(1 − v/100)))` for a `percentage` discount, and
`round2 p` with no discount — equal to `p` whenever `p` has at most two
decimal places; a percentage discount of 10 on 2500 yields 2250, an amount
discount of 500 on 3000 yields 2500. -/
theorem calculateFinalPrice_spec :
    (∀ p v : ℚ, calculateFinalPrice p (some ⟨.amount, v⟩) = round2 (max 0 (p - v))) ∧
    (∀ p v : ℚ, calculateFinalPrice p (some ⟨.percentage, v⟩) = round2 (max 0 (p * (1 - v / 100)))) ∧
    (∀ p : ℚ, calculateFinalPrice p none = round2 p) ∧
    (∀ p : ℚ, (p * 100).den = 1 → calculateFinalPrice p none = p) ∧
    calculateFinalPrice 2500 (some ⟨.percentage, 10⟩) = 2250 ∧
    calculateFinalPrice 3000 (some ⟨.amount, 500⟩) = 2500 := by
  refine ⟨fun p v => rfl, fun p v => rfl, fun p => rfl, fun p hp => round2_eq_self hp, ?_, ?_⟩
  · show round2 (max 0 (2500 * (1 - 10/100))) = 2250
    rw [show (2500 : ℚ) * (1 - 10/100) = 2250 by norm_num,
        max_eq_right (by norm_num : (0:ℚ) ≤ 2250),
        show (2250 : ℚ) = ((2250 : ℤ) : ℚ) by norm_num]
    rw [round2_intCast]
  · show round2 (max 0 (3000 - 500)) = 2500
    rw [show (3000 : ℚ) - 500 = 2500 by norm_num,
        max_eq_right (by norm_num : (0:ℚ) ≤ 2500),
        show (2500 : ℚ) = ((2500 : ℤ) : ℚ) by norm_num]
    rw [round2_intCast]

/-- C2 witness: the amended theorem applied at a two-decimal price. -/
theorem calculateFinalPrice_spec_witness :
    ((1/4 : ℚ) * 100).den = 1 ∧ calculateFinalPrice (1/4) none = 1/4 :=
  ⟨by norm_num, calculateFinalPrice_spec.2.2.2.1 (1/4) (by norm_num)⟩

namespace Palnesto.CacheKey

/-- Replacing the head segment `shirts:list` by `list` takes exactly the
`shirts:` text off the front of the joined key. -/
theorem joinColon_shirts_head (rest : List String) :
    joinColon ("shirts:list" :: rest) = "shirts:" ++ joinColon ("list" :: rest) := by
  cases rest with
  | nil => rfl
  | cons t ts =>
    show "shirts:list" ++ ":" ++ joinColon (t :: ts)
        = "shirts:" ++ ("list" ++ ":" ++ joinColon (t :: ts))
    rw [← String.append_assoc]
    rfl

end Palnesto.CacheKey

open Palnesto.CacheKey

/-- C3 counterexample: the claim says the listing cache key follows the
grammar `list:[…]page:<n>:limit:<n>`; the code's key carries the prefix
`shirts:list`, so already the bare pagination-only key differs from the
grammar's key. -/
theorem generateCacheKey_grammar_cex :
    generateCacheKey (pageOnly 1 10) = "shirts:list:page:1:limit:10" ∧
    specCacheKey (pageOnly 1 10) = "list:page:1:limit:10" ∧
    generateCacheKey (pageOnly 1 10) ≠ specCacheKey (pageOnly 1 10) :=
  ⟨rfl, rfl, by decide⟩

/-- C3 (amended): the listing cache key is a deterministic function of the
filter values equal to `shirts:` followed by the spec grammar
`list:[size:<v>:][type:<v>:][minPrice:<v>:][maxPrice:<v>:]page:<n>:limit:<n>`:
the optional dimensions appear in the fixed order and an absent dimension
contributes nothing to the key. -/
theorem generateCacheKey_grammar (f : KeyFilters) :
    generateCacheKey f = "shirts:" ++ specCacheKey f :=
  joinColon_shirts_head _

open Palnesto.Norm Palnesto.Examples in
/-- C4: in the normalized `listShirts` the cache is consulted before the
`groupBy` test (its own comment says "only for non-grouped results"), and the
key ignores `groupBy`; so after a plain listing for the same filters is
cached, a `groupBy = 'design'` request is served from that cached entry — the
grouped request returns the previously cached, ungrouped response
(`grouped = false`) instead of computing groups from the store. -/
theorem listShirts_grouped_served_from_cache :
    ∃ (r : NResult) (st1 : NState),
      Norm.listShirts teeFlatReq teeState = (.ok r, st1) ∧
      r.grouped = false ∧
      Norm.listShirts teeGroupedReq st1 = (.ok r, st1) :=
  ⟨_, _, rfl, rfl, rfl⟩

open Palnesto.Norm in
/-- C7: for update and delete, a missing design and a design owned by another
seller yield one and the same outcome (`null` resp. `false`) with the state
untouched; a successful delete removes every variant of the design together
with the design itself. -/
theorem notFound_unauthorized_collapsed :
    (∀ (sid uid : ℕ) (data : UpdateInput) (st : NState),
        (∀ s ∈ st.shirts, ¬(s.id = sid ∧ s.userId = uid)) →
        Norm.updateShirt sid uid data st = (.ok none, st)) ∧
    (∀ (sid uid : ℕ) (st : NState),
        (∀ s ∈ st.shirts, ¬(s.id = sid ∧ s.userId = uid)) →
        Norm.deleteShirt sid uid st = (false, st)) ∧
    (∀ (sid uid : ℕ) (st st' : NState),
        Norm.deleteShirt sid uid st = (true, st') →
        (∀ r ∈ st'.shirtSizes, r.shirtId ≠ sid) ∧
        (∀ s ∈ st'.shirts, ¬(s.id = sid ∧ s.userId = uid))) := by
  have hnone : ∀ (sid uid : ℕ) (st : NState),
      (∀ s ∈ st.shirts, ¬(s.id = sid ∧ s.userId = uid)) →
      findShirt st sid uid = none := by
    intro sid uid st h
    rw [findShirt, List.find?_eq_none]
    intro s hs
    have := h s hs
    simp only [Bool.and_eq_true, beq_iff_eq]
    tauto
  refine ⟨?_, ?_, ?_⟩
  · intro sid uid data st h
    rw [Norm.updateShirt, hnone sid uid st h]
  · intro sid uid st h
    rw [Norm.deleteShirt, hnone sid uid st h]
  · intro sid uid st st' h
    rw [Norm.deleteShirt] at h
    cases hf : findShirt st sid uid with
    | none => rw [hf] at h; simp at h
    | some shirt =>
      rw [hf] at h
      have hid : shirt.id = sid ∧ shirt.userId = uid := by
        have := List.find?_some hf
        simp only [Bool.and_eq_true, beq_iff_eq] at this
        exact this
      simp only at h
      by_cases hd :
          (st.shirts.any (fun s => s.id == sid && s.userId == uid)) = true
      · rw [if_pos hd] at h
        cases h
        constructor
        · intro r hr
          simp only [List.mem_filter, Bool.not_eq_true', beq_eq_false_iff_ne, ne_eq] at hr
          rw [← hid.1]
          exact hr.2
        · intro s hs
          rw [List.mem_filter] at hs
          rintro ⟨h1, h2⟩
          simp [h1, h2] at hs
      · rw [if_neg hd] at h
        simp at h

/-- C7 witness: the missing-design and wrong-owner cases at concrete inputs,
and the cascade of a concrete successful delete. -/
theorem notFound_unauthorized_collapsed_witness :
    Norm.updateShirt 99 10 Examples.allZeroData Examples.teeState
      = (.ok none, Examples.teeState) ∧
    Norm.deleteShirt 1 99 Examples.teeState = (false, Examples.teeState) ∧
    (∀ r ∈ (Norm.deleteShirt 1 10 Examples.teeState).2.shirtSizes, r.shirtId ≠ 1) :=
  ⟨notFound_unauthorized_collapsed.1 99 10 _ _ (by decide),
   notFound_unauthorized_collapsed.2.1 1 99 _ (by decide),
   (notFound_unauthorized_collapsed.2.2 1 10 Examples.teeState
      (Norm.deleteShirt 1 10 Examples.teeState).2 rfl).1⟩

namespace Palnesto

/-- `new Set(l).size === l.length` holds exactly when `l` has no duplicates. -/
theorem jsSetSize_eq_length_iff [DecidableEq α] (l : List α) :
    jsSetSize l = l.length ↔ l.Nodup := by
  constructor
  · intro h
    rw [← List.dedup_eq_self]
    exact List.Sublist.eq_of_length (List.dedup_sublist l) h
  · intro h
    rw [jsSetSize, List.Nodup.dedup h]

end Palnesto

open Palnesto.Norm in
/-- C6: an update whose `sizes` batch repeats a size reference is rejected by
the validator (the schema's duplicate-size refinement) before the service
runs: the endpoint returns the validation-rejection outcome — the spec's
`Conflict` for a duplicate size — and the state, store and cache alike, is
exactly the input state. -/
theorem duplicate_sizes_rejected_pre_write :
    ∀ (sid uid : ℕ) (d : UpdateInput) (st : NState) (l : List SizeEntry),
      d.sizes = some l → ¬ (l.map (·.sizeReferenceId)).Nodup →
      Norm.updateShirtEndpoint sid uid d st = (.validationError, st) := by
  intro sid uid d st l hs hdup
  have hv : validUpdateInput d = false := by
    apply Bool.eq_false_iff.mpr
    intro htrue
    simp only [validUpdateInput, hs, Bool.and_eq_true, beq_iff_eq] at htrue
    exact hdup ((jsSetSize_eq_length_iff _).mp (by rw [List.length_map]; tauto))
  simp only [Norm.updateShirtEndpoint, hv, Bool.false_eq_true, if_false]

/-- C6 witness: the batch `[{ref 200, stock 30}, {ref 200, stock 30}]` is
rejected with the store untouched. -/
theorem duplicate_sizes_rejected_pre_write_witness :
    Examples.dupSizesData.sizes = some [⟨200, 100, none, 30⟩, ⟨200, 100, none, 30⟩] ∧
    Norm.updateShirtEndpoint 1 10 Examples.dupSizesData Examples.teeState
      = (.validationError, Examples.teeState) :=
  ⟨rfl, duplicate_sizes_rejected_pre_write 1 10 _ _ _ rfl (by decide)⟩

namespace Palnesto.Norm

/-- The shared-attribute application never changes the design's id. -/
theorem applyShirtFields_ok_id {st : NState} {n? d? : Option String}
    {t? : Option ℕ} {dc? : Option Discount} {s0 s4 : NShirt}
    (h : applyShirtFields st n? d? t? dc? s0 = .ok s4) : s4.id = s0.id := by
  simp only [applyShirtFields] at h
  rcases n? with _ | n <;> rcases d? with _ | d <;> rcases dc? with _ | dc <;>
    rcases t? with _ | t
  all_goals
    dsimp only at h
    (try split at h) <;> simp only [Except.map] at h <;> cases h <;> rfl

/-- `findOne({_id, userId})` returns a record with that id and owner. -/
theorem findShirt_some {st : NState} {sid uid : ℕ} {s : NShirt}
    (h : findShirt st sid uid = some s) : s.id = sid ∧ s.userId = uid := by
  have := List.find?_some h
  simpa using this

/-- Entries of the batch matching `currentSizeRefId` are skipped by the
reconciliation loop: running the loop on the batch equals running it on the
batch with those entries removed. -/
theorem processSizes_skips_curRef (c : ℕ) (existing : List NShirtSize) (shirt : NShirt) :
    ∀ (entries : List SizeEntry) (st : NState) (upd crtd : List NShirtSize),
      processSizes (some c) existing shirt entries st upd crtd
        = processSizes (some c) existing shirt
            (entries.filter (fun e => e.sizeReferenceId != c)) st upd crtd := by
  intro entries
  induction entries with
  | nil => intro st upd crtd; rfl
  | cons e rest ih =>
    intro st upd crtd
    by_cases hc : e.sizeReferenceId = c
    · rw [show List.filter (fun e => e.sizeReferenceId != c) (e :: rest)
            = List.filter (fun e => e.sizeReferenceId != c) rest by
          simp [List.filter_cons, hc]]
      by_cases h0 : e.stock = 0
      · rw [processSizes, if_pos h0]
        exact ih st upd crtd
      · rw [processSizes, if_neg h0, if_pos (by rw [hc])]
        exact ih st upd crtd
    · rw [show List.filter (fun e => e.sizeReferenceId != c) (e :: rest)
            = e :: List.filter (fun e => e.sizeReferenceId != c) rest by
          simp [List.filter_cons, hc]]
      by_cases h0 : e.stock = 0
      · rw [processSizes, processSizes, if_pos h0, if_pos h0]
        exact ih st upd crtd
      · have hcur : ¬ (some c = some e.sizeReferenceId) := by
          intro hh; exact hc (Option.some.inj hh).symm
        rw [processSizes, processSizes, if_neg h0, if_neg h0, if_neg hcur, if_neg hcur]
        by_cases hval : (!(st.sizeRefs.any (fun r => r.id == e.sizeReferenceId))) = true
        · rw [if_pos hval, if_pos hval]
        · rw [if_neg hval, if_neg hval]
          cases hfind : existing.find? (fun r => r.sizeReferenceId == e.sizeReferenceId) with
          | some ex => simp only [hfind, ih]
          | none => simp only [hfind, ih]

end Palnesto.Norm

open Palnesto.Norm in
/-- C10: with a `sizes` batch supplied and no `currentSizeVariant`, the batch
entry whose size reference equals that of the design's FIRST stored variant
(the first record the store returns) is always skipped — the whole update
behaves exactly as if those entries were absent from the request. -/
theorem updateShirt_skips_first_stored_size
    (sid uid : ℕ) (data : UpdateInput) (st : NState) (l : List SizeEntry) (c : ℕ)
    (hcv : data.currentSizeVariant = none)
    (hsz : data.sizes = some l)
    (hv : ((st.shirtSizes.filter (fun r => r.shirtId == sid)).head?).map (·.sizeReferenceId)
            = some c) :
    Norm.updateShirt sid uid data st
      = Norm.updateShirt sid uid
          { data with sizes := some (l.filter (fun e => e.sizeReferenceId != c)) } st := by
  unfold Norm.updateShirt
  dsimp only
  cases hfind : findShirt st sid uid with
  | none => rfl
  | some shirt0 =>
    dsimp only
    cases happ : applyShirtFields st data.name data.description data.shirtTypeId
        data.discount shirt0 with
    | error m => rfl
    | ok s4 =>
      dsimp only
      have hid : s4.id = sid := by
        rw [applyShirtFields_ok_id happ, (findShirt_some hfind).1]
      rw [hcv, hsz]
      dsimp only [cvStepRun]
      have hloop : sizesStepRun (replaceShirt st s4) s4 (some l)
          = sizesStepRun (replaceShirt st s4) s4
              (some (l.filter (fun e => e.sizeReferenceId != c))) := by
        simp only [sizesStepRun, hid]
        have hcur : (((replaceShirt st s4).shirtSizes.filter
            (fun r => r.shirtId == sid)).head?).map (·.sizeReferenceId) = some c := hv
        rw [hcur]
        rw [processSizes_skips_curRef c _ s4 l (replaceShirt st s4) [] []]
        by_cases h2 : (l.filter (fun e => e.sizeReferenceId != c)).length ≠ 0
        · have h1 : l.length ≠ 0 := by
            intro h0
            rw [List.length_eq_zero.mp h0] at h2
            simp at h2
          rw [if_pos h1, if_pos h2]
        · have hnil : l.filter (fun e => e.sizeReferenceId != c) = [] :=
            List.length_eq_zero.mp (not_not.mp (fun hh => h2 hh))
          by_cases h1 : l.length ≠ 0
          · rw [if_pos h1, if_neg h2, hnil]
            rfl
          · rw [if_neg h1, if_neg h2]
      rw [hloop]

/-- C10 witness: a request whose only batch entry matches the first stored
variant's size reference behaves exactly like the empty-batch request. -/
theorem updateShirt_skips_first_stored_size_witness :
    Norm.updateShirt 1 10 Examples.firstSizeData Examples.teeState
      = Norm.updateShirt 1 10
          { Examples.firstSizeData with
            sizes := some (([⟨200, 150, none, 7⟩] : List Norm.SizeEntry).filter
              (fun e => e.sizeReferenceId != 200)) }
          Examples.teeState :=
  updateShirt_skips_first_stored_size 1 10 _ _ [⟨200, 150, none, 7⟩] 200 rfl rfl rfl

namespace Palnesto.Norm

/-- With no `shirtTypeId` in the request the shared-field application cannot
throw. -/
theorem applyShirtFields_none_ok (st : NState) (n? d? : Option String)
    (dc? : Option Discount) (s0 : NShirt) :
    ∃ s4, applyShirtFields st n? d? none dc? s0 = .ok s4 :=
  ⟨_, rfl⟩

/-- A batch whose entries all carry stock 0 is skipped wholesale by the
reconciliation loop. -/
theorem processSizes_allZero (curRef : Option ℕ) (existing : List NShirtSize)
    (shirt : NShirt) :
    ∀ (l : List SizeEntry) (st : NState) (upd crtd : List NShirtSize),
      (∀ e ∈ l, e.stock = 0) →
      processSizes curRef existing shirt l st upd crtd = (.ok (), st, upd, crtd) := by
  intro l
  induction l with
  | nil => intro st upd crtd _; rfl
  | cons e rest ih =>
    intro st upd crtd hz
    rw [processSizes, if_pos (hz e (by simp))]
    exact ih st upd crtd (fun x hx => hz x (by simp [hx]))

end Palnesto.Norm

/-- C5 counterexample: a non-empty all-zero-stock batch passes validation in
both layouts — the legacy `updateShirtSchema` sizes refinement only rejects
duplicates, and the normalized validator accepts the all-zero request — so no
`ValidationError` ("no size with positive stock") is raised. -/
theorem allZero_batch_not_rejected_cex :
    Legacy.updateSizesValid [⟨.L, 0⟩] = true ∧
    Norm.validUpdateInput Examples.allZeroData = true := by
  constructor
  · decide
  · decide

open Palnesto.Norm in
/-- C5 (amended): an update whose sizes batch contains only zero-stock entries
is NOT rejected — it passes validation (previous theorem), and the
reconciliation skips every entry, so no variant is updated or created: the
variant collection is unchanged and, when the design was found, both counters
are 0 with empty updated/created lists. -/
theorem allZero_batch_noop
    (sid uid : ℕ) (data : UpdateInput) (st : NState) (l : List SizeEntry)
    (hty : data.shirtTypeId = none)
    (hcv : data.currentSizeVariant = none)
    (hsz : data.sizes = some l)
    (hz : ∀ e ∈ l, e.stock = 0) :
    ((Norm.updateShirt sid uid data st).2).shirtSizes = st.shirtSizes ∧
    (∀ (res : UpdateRes) (st' : NState),
      Norm.updateShirt sid uid data st = (.ok (some res), st') →
      res.updatedCount = 0 ∧ res.createdCount = 0 ∧
      res.updatedShirtSizes = [] ∧ res.createdShirtSizes = []) := by
  unfold Norm.updateShirt
  dsimp only
  cases hfind : findShirt st sid uid with
  | none =>
    refine ⟨rfl, ?_⟩
    intro res st' h
    simp at h
  | some shirt0 =>
    dsimp only
    obtain ⟨s4, happ⟩ := applyShirtFields_none_ok st data.name data.description data.discount shirt0
    rw [hty, happ]
    dsimp only
    rw [hcv, hsz]
    dsimp only [cvStepRun, sizesStepRun]
    by_cases h0 : l.length ≠ 0
    · rw [if_pos h0]
      rw [processSizes_allZero _ _ s4 l _ [] [] hz]
      exact ⟨rfl, fun res st' h => by cases h; exact ⟨rfl, rfl, rfl, rfl⟩⟩
    · rw [if_neg h0]
      exact ⟨rfl, fun res st' h => by cases h; exact ⟨rfl, rfl, rfl, rfl⟩⟩

/-- C5 witness: the all-zero batch request against the concrete store. -/
theorem allZero_batch_noop_witness :
    ((Norm.updateShirt 1 10 Examples.allZeroData Examples.teeState).2).shirtSizes
      = Examples.teeState.shirtSizes ∧
    (∀ (res : Norm.UpdateRes) (st' : Norm.NState),
      Norm.updateShirt 1 10 Examples.allZeroData Examples.teeState = (.ok (some res), st') →
      res.updatedCount = 0 ∧ res.createdCount = 0 ∧
      res.updatedShirtSizes = [] ∧ res.createdShirtSizes = []) :=
  allZero_batch_noop 1 10 Examples.allZeroData Examples.teeState _ rfl rfl rfl
    (by decide)

namespace Palnesto

/-- `total ≤ ceil(total/limit) × limit` for positive `limit`. -/
theorem le_ceilDiv_mul (n m : ℕ) (hm : 0 < m) : n ≤ ceilDiv n m * m := by
  have h1 : m * ((n + m - 1) / m) + (n + m - 1) % m = n + m - 1 := Nat.div_add_mod _ _
  have h2 : (n + m - 1) % m < m := Nat.mod_lt _ hm
  rw [ceilDiv, Nat.mul_comm]
  generalize hgen : m * ((n + m - 1) / m) = p at h1 ⊢
  omega

/-- Summing the page sizes of `drop (i·limit) |>.take limit` over enough pages
recovers the whole list. -/
theorem paginate_sum (limit : ℕ) :
    ∀ (P : ℕ) (l : List α), l.length ≤ P * limit →
      ∑ i ∈ Finset.range P, ((l.drop (i * limit)).take limit).length = l.length := by
  intro P
  induction P with
  | zero =>
    intro l hl
    simp at hl
    simp [hl]
  | succ P ih =>
    intro l hl
    rw [Finset.sum_range_succ']
    have hshift : ∀ i : ℕ, ((l.drop ((i + 1) * limit)).take limit).length
        = (((l.drop limit).drop (i * limit)).take limit).length := by
      intro i
      rw [List.drop_drop]
      congr 2
      ring
    calc (∑ i ∈ Finset.range P, ((l.drop ((i + 1) * limit)).take limit).length)
          + ((l.drop (0 * limit)).take limit).length
        = (∑ i ∈ Finset.range P, (((l.drop limit).drop (i * limit)).take limit).length)
          + (l.take limit).length := by
          rw [Finset.sum_congr rfl (fun i _ => hshift i)]
          norm_num
      _ = (l.drop limit).length + (l.take limit).length := by
          rw [ih (l.drop limit) (by
            rw [List.length_drop]
            have hstep : (P + 1) * limit = P * limit + limit := by ring
            omega)]
      _ = l.length := by
          rw [List.length_drop, List.length_take]
          omega

end Palnesto

open Palnesto.Legacy in
/-- C9: for a fixed ungrouped filter and positive limit, each page returns the
slice `skip = (page−1)×limit`, `take limit` of the sorted matching records,
and the page sizes over all `totalPages` pages sum to the `total` reported by
page 1 — pagination is exhaustive and non-overlapping. -/
theorem pagination_exhaustive (f : LFilters) (db : List LShirt)
    (hg : f.groupBy = false) (hl : 0 < f.limit) :
    (∀ p : ℕ, (Legacy.listShirts { f with page := p } [] db).1.shirts
        = .flat (paginate p f.limit (sortNewestFirst (db.filter (lMatches f))))) ∧
    ∑ i ∈ Finset.range ((Legacy.listShirts { f with page := 1 } [] db).1.totalPages),
        ((Legacy.listShirts { f with page := i + 1 } [] db).1.shirts).count
      = (Legacy.listShirts { f with page := 1 } [] db).1.total := by
  have heval : ∀ p : ℕ, (Legacy.listShirts { f with page := p } [] db).1
      = { shirts := .flat (paginate p f.limit (sortNewestFirst (db.filter (lMatches f))))
          total := (db.filter (lMatches f)).length
          page := p
          limit := f.limit
          totalPages := ceilDiv (db.filter (lMatches f)).length f.limit } := by
    intro p
    have hne : ¬ (f.groupBy = true) := by rw [hg]; simp
    simp only [Legacy.listShirts]
    rw [if_neg hne]
    rfl
  constructor
  · intro p
    rw [heval p]
  · have hlen : (sortNewestFirst (db.filter (lMatches f))).length
        = (db.filter (lMatches f)).length :=
      (List.perm_insertionSort _ _).length_eq
    calc ∑ i ∈ Finset.range ((Legacy.listShirts { f with page := 1 } [] db).1.totalPages),
          ((Legacy.listShirts { f with page := i + 1 } [] db).1.shirts).count
        = ∑ i ∈ Finset.range (ceilDiv (db.filter (lMatches f)).length f.limit),
            (((sortNewestFirst (db.filter (lMatches f))).drop (i * f.limit)).take f.limit).length := by
          rw [heval 1]
          refine Finset.sum_congr rfl (fun i _ => ?_)
          rw [heval (i + 1)]
          show (paginate (i + 1) f.limit (sortNewestFirst (db.filter (lMatches f)))).length = _
          rw [paginate, Nat.add_sub_cancel]
      _ = (sortNewestFirst (db.filter (lMatches f))).length := by
          apply paginate_sum
          rw [hlen]
          exact le_ceilDiv_mul _ _ hl
      _ = (Legacy.listShirts { f with page := 1 } [] db).1.total := by
          rw [heval 1, hlen]

/-- C9 witness: the three-variant store paged at limit 2. -/
theorem pagination_exhaustive_witness :
    Examples.pagedFilters.groupBy = false ∧ 0 < Examples.pagedFilters.limit ∧
    ∑ i ∈ Finset.range
        ((Legacy.listShirts { Examples.pagedFilters with page := 1 } [] Examples.oxfordDb).1.totalPages),
        ((Legacy.listShirts { Examples.pagedFilters with page := i + 1 } [] Examples.oxfordDb).1.shirts).count
      = (Legacy.listShirts { Examples.pagedFilters with page := 1 } [] Examples.oxfordDb).1.total :=
  ⟨rfl, by decide,
   (pagination_exhaustive Examples.pagedFilters Examples.oxfordDb rfl (by decide)).2⟩

open Palnesto.Legacy in
/-- C8: a grouped design aggregates its group as the spec states:
`totalStock` is the sum of all member stocks, `availableSizes` holds exactly
the sizes of positive-stock members sorted by the fixed size order, and
`variants` lists every member (zero stock included) sorted by size order;
concretely, M(30)/L(25)/XL(0) gives totalStock 55, availableSizes [M, L] and
3 variant entries. -/
theorem mkLGroup_aggregates :
    (∀ (vs : List LShirt) (g : LGroup), Legacy.mkLGroup vs = some g →
      g.totalStock = (vs.map (·.stock)).sum ∧
      (∀ sz : SSize, sz ∈ g.availableSizes ↔ ∃ v ∈ vs, v.size = sz ∧ 0 < v.stock) ∧
      g.availableSizes.Sorted (fun a b => sizeOrder a ≤ sizeOrder b) ∧
      g.variants.length = vs.length ∧
      g.variants.Perm (vs.map (fun v => LVariant.mk v.id v.size v.stock v.finalPrice)) ∧
      g.variants.Sorted (fun a b => sizeOrder a.size ≤ sizeOrder b.size)) ∧
    (Legacy.mkLGroup Examples.oxfordDb).map (·.totalStock) = some 55 ∧
    (Legacy.mkLGroup Examples.oxfordDb).map (·.availableSizes) = some [.M, .L] ∧
    (Legacy.mkLGroup Examples.oxfordDb).map (·.variants.length) = some 3 := by
  refine ⟨?_, by decide, by decide, by decide⟩
  intro vs g h
  haveI htot : IsTotal LShirt (fun a b => sizeOrder a.size ≤ sizeOrder b.size) :=
    ⟨fun a b => Nat.le_total _ _⟩
  haveI htrans : IsTrans LShirt (fun a b => sizeOrder a.size ≤ sizeOrder b.size) :=
    ⟨fun _ _ _ hab hbc => Nat.le_trans hab hbc⟩
  cases hs : sortBySizeOrder vs with
  | nil => rw [Legacy.mkLGroup, hs] at h; cases h
  | cons first rest =>
    rw [Legacy.mkLGroup, hs] at h
    have hperm : (first :: rest).Perm vs := by
      rw [← hs]
      exact List.perm_insertionSort _ _
    have hsorted : (first :: rest).Pairwise (fun a b => sizeOrder a.size ≤ sizeOrder b.size) := by
      rw [← hs]
      exact List.sorted_insertionSort _ _
    cases h
    refine ⟨?_, ?_, ?_, ?_, ?_, ?_⟩
    · exact (hperm.map (·.stock)).sum_eq
    · intro sz
      simp only [List.mem_map, List.mem_filter, decide_eq_true_eq]
      constructor
      · rintro ⟨v, ⟨hv, hstock⟩, hsz⟩
        exact ⟨v, hperm.subset hv, hsz, hstock⟩
      · rintro ⟨v, hv, hsz, hstock⟩
        exact ⟨v, ⟨hperm.symm.subset hv, hstock⟩, hsz⟩
    · exact List.pairwise_map.mpr (hsorted.filter _)
    · rw [List.length_map]
      exact hperm.length_eq
    · exact hperm.map (fun v => LVariant.mk v.id v.size v.stock v.finalPrice)
    · exact List.pairwise_map.mpr hsorted

/-- C8 witness: the aggregate characterization applied to the Oxford design. -/
theorem mkLGroup_aggregates_witness :
    ∃ g, Legacy.mkLGroup Examples.oxfordDb = some g ∧
      g.totalStock = (Examples.oxfordDb.map (·.stock)).sum ∧
      (SSize.XL ∈ g.availableSizes ↔
        ∃ v ∈ Examples.oxfordDb, v.size = .XL ∧ 0 < v.stock) := by
  cases hm : Legacy.mkLGroup Examples.oxfordDb with
  | none =>
    have hsome : (Legacy.mkLGroup Examples.oxfordDb).isSome = true := rfl
    rw [hm] at hsome
    simp at hsome
  | some g =>
    exact ⟨g, rfl, (mkLGroup_aggregates.1 _ _ hm).1,
      (mkLGroup_aggregates.1 _ _ hm).2.1 .XL⟩

namespace Palnesto.Legacy

/-- The `availableSizes` and `variants` fields of a grouped design, in terms
of the size-sorted member list. -/
theorem mkLGroup_some_fields {vs : List LShirt} {g : LGroup}
    (h : Legacy.mkLGroup vs = some g) :
    g.availableSizes
      = ((sortBySizeOrder vs).filter (fun v => decide (0 < v.stock))).map (·.size) ∧
    g.variants
      = (sortBySizeOrder vs).map (fun v => LVariant.mk v.id v.size v.stock v.finalPrice) := by
  cases hs : sortBySizeOrder vs with
  | nil => rw [Legacy.mkLGroup, hs] at h; cases h
  | cons first rest =>
    rw [Legacy.mkLGroup, hs] at h
    cases h
    exact ⟨rfl, rfl⟩

end Palnesto.Legacy

open Palnesto.Legacy in
/-- C1 counterexample: under a size-L filter in grouped mode, a design whose
only L variant has stock 0 is NOT kept — the post-grouping filter tests
`availableSizes` (positive stock only), so the listing returns no group even
though a group containing an L variant exists before the size filter. -/
theorem grouped_size_filter_zero_stock_cex :
    Examples.soloZeroL.size = .L ∧
    (Legacy.lGroupedDesigns Examples.groupedLFilters [Examples.soloZeroL]).length = 1 ∧
    (Legacy.listShirts Examples.groupedLFilters [] [Examples.soloZeroL]).1.total = 0 ∧
    (Legacy.listShirts Examples.groupedLFilters [] [Examples.soloZeroL]).1.shirts
      = .grouped [] :=
  ⟨rfl, by decide, by decide, rfl⟩

open Palnesto.Legacy in
/-- C1 (amended): in grouped mode the size filter is indeed applied only after
grouping — the groups are built from a query that ignores the size filter —
but a group survives exactly when it contains a variant of the filtered size
WITH POSITIVE STOCK (membership in `availableSizes`), not merely a variant of
that size. -/
theorem grouped_size_filter_post_grouping
    (f : LFilters) (cache : List (String × LResult)) (db : List LShirt) (sz : SSize)
    (hg : f.groupBy = true) (hs : f.size = some sz) :
    Legacy.lGroupedDesigns f db = Legacy.lGroupedDesigns { f with size := none } db ∧
    (Legacy.listShirts f cache db).1.shirts
      = .grouped (paginate f.page f.limit
          ((Legacy.lGroupedDesigns f db).filter
            (fun d => decide (∃ v ∈ d.variants, v.size = sz ∧ 0 < v.stock)))) ∧
    (Legacy.listShirts f cache db).1.total
      = ((Legacy.lGroupedDesigns f db).filter
          (fun d => decide (∃ v ∈ d.variants, v.size = sz ∧ 0 < v.stock))).length := by
  have hmatch : lMatches f = lMatches ({ f with size := none }) := by
    funext s
    simp only [lMatches, hs, hg]
  have h1 : Legacy.lGroupedDesigns f db = Legacy.lGroupedDesigns { f with size := none } db := by
    simp only [Legacy.lGroupedDesigns, hmatch]
  have hfc : (Legacy.lGroupedDesigns f db).filter (fun d => d.availableSizes.contains sz)
      = (Legacy.lGroupedDesigns f db).filter
          (fun d => decide (∃ v ∈ d.variants, v.size = sz ∧ 0 < v.stock)) := by
    apply List.filter_congr
    intro d hd
    obtain ⟨vs, hvs, hm⟩ := List.mem_filterMap.mp hd
    obtain ⟨hav, hvar⟩ := Legacy.mkLGroup_some_fields hm
    rw [hav, hvar]
    apply Bool.coe_iff_coe.mp
    simp only [List.elem_iff, decide_eq_true_eq, List.mem_map, List.mem_filter]
    constructor
    · rintro ⟨v, ⟨hv, hstock⟩, hsz⟩
      exact ⟨_, ⟨v, hv, rfl⟩, hsz, by simpa using hstock⟩
    · rintro ⟨x, ⟨v, hv, hx⟩, hsz, hstock⟩
      subst hx
      exact ⟨v, ⟨hv, by simpa using hstock⟩, hsz⟩
  refine ⟨h1, ?_, ?_⟩
  · simp only [Legacy.listShirts]
    rw [if_pos hg]
    simp only [Legacy.lFilteredDesigns, hs]
    rw [hfc]
  · simp only [Legacy.listShirts]
    rw [if_pos hg]
    simp only [Legacy.lFilteredDesigns, hs]
    rw [hfc]

/-- C1 witness: the amended characterization at the Oxford store under a
size-L grouped listing. -/
theorem grouped_size_filter_post_grouping_witness :
    Examples.groupedLFilters.groupBy = true ∧
    (Legacy.listShirts Examples.groupedLFilters [] Examples.oxfordDb).1.total
      = ((Legacy.lGroupedDesigns Examples.groupedLFilters Examples.oxfordDb).filter
          (fun d => decide (∃ v ∈ d.variants, v.size = SSize.L ∧ 0 < v.stock))).length :=
  ⟨rfl, (grouped_size_filter_post_grouping Examples.groupedLFilters [] Examples.oxfordDb
    .L rfl rfl).2.2⟩
